import Mathlib

/-!
Verification of the Dynamic Query Engine and Access-Policy Lifecycle Manager.

Shallow embedding of the Go sources:
* `pkg/querybuilder` (QueryParams, ParseQueryParams, BuildWhereClause,
  BuildOrderByClause, BuildPaginationClause, isReservedParam);
* `routes/table_handlers.go` (buildQueryFilters, the SQL assembly of
  GetTableRows);
* the ad-hoc statement classifier (isSelectQuery, trimSpaces,
  containsString);
* the RLS policy lifecycle helpers (rolesArrayToJson, parseRoles,
  applyRLSPolicy, dropRLSPolicy, UpdateRLSPolicy).

Strings are modelled as `List Char` (`Str`).  The Go string primitives used
by the sources (`strings.Split`, `strings.Trim`, `strings.TrimSpace`,
`strings.Join`, `strings.ToUpper`, `strings.Contains`, `strings.EqualFold`)
are embedded below; Unicode-only behaviour (non-ASCII case folding and
non-ASCII white space) is irrelevant to the verified properties, so the
embeddings implement the ASCII semantics, which coincide with Go's on the
inputs that occur.
-/

/-- Go strings, modelled as lists of characters. -/
abbrev Str := List Char

/-- ASCII white-space recognised by `strings.TrimSpace` (middle column of
Go's `unicode.IsSpace` restricted to ASCII). -/
def isGoSpace (c : Char) : Bool :=
  c = ' ' || c = '\t' || c = '\n' || c = '\x0b' || c = '\x0c' || c = '\r'

/-- `strings.TrimSpace`: drop white space from both ends. -/
def goTrimSpace (s : Str) : Str :=
  ((s.dropWhile isGoSpace).reverse.dropWhile isGoSpace).reverse

/-- `strings.Trim s cutset`: drop characters of `cutset` from both ends. -/
def goTrim (s : Str) (cutset : List Char) : Str :=
  ((s.dropWhile (fun c => cutset.contains c)).reverse.dropWhile
    (fun c => cutset.contains c)).reverse

/-- Worker for `goSplit`.  The first argument is fuel; every recursive call
consumes at least one character of the string, so `s.length + 1` units of
fuel always suffice (`goSplit` supplies exactly that), and the fuel keeps
the recursion structural so that concrete instances reduce in the kernel. -/
def goSplitF (sep : Str) : Nat → Str → List Str
  | 0, s => [s]
  | _ + 1, [] => [[]]
  | fuel + 1, c :: rest =>
    if sep.isPrefixOf (c :: rest) ∧ sep ≠ [] then
      [] :: goSplitF sep fuel ((c :: rest).drop sep.length)
    else
      match goSplitF sep fuel rest with
      | [] => [[c]]
      | t :: ts => (c :: t) :: ts

/-- `strings.Split s sep` for non-empty `sep`: split around each leftmost
non-overlapping occurrence of `sep`.  `goSplit [] sep = [[]]`, like Go's
`Split("", sep) = [""]`. -/
def goSplit (s sep : Str) : List Str :=
  goSplitF sep (s.length + 1) s

/-- `strings.Join parts sep`. -/
def joinSep (sep : Str) : List Str → Str
  | [] => []
  | [x] => x
  | x :: y :: ys => x ++ sep ++ joinSep sep (y :: ys)

/-- `strings.ToUpper`, ASCII fragment. -/
def toUpperAscii (s : Str) : Str :=
  s.map fun c => if 'a' ≤ c ∧ c ≤ 'z' then Char.ofNat (c.toNat - 32) else c

/-- `strings.ToLower`, ASCII fragment. -/
def toLowerAscii (s : Str) : Str :=
  s.map fun c => if 'A' ≤ c ∧ c ≤ 'Z' then Char.ofNat (c.toNat + 32) else c

/-- `strings.EqualFold`, ASCII fragment (the sources only compare against
ASCII keywords). -/
def equalFoldAscii (a b : Str) : Bool :=
  toLowerAscii a = toLowerAscii b

/-- The decimal digit character for `d < 10`. -/
def digitChar (d : Nat) : Char :=
  match d with
  | 0 => '0' | 1 => '1' | 2 => '2' | 3 => '3' | 4 => '4'
  | 5 => '5' | 6 => '6' | 7 => '7' | 8 => '8' | 9 => '9'
  | _ => '?'

/-- Fueled decimal rendering worker; `n + 1` units of fuel always suffice
because `n / 10 < n` for `n ≥ 10`. -/
def natStrAux : Nat → Nat → Str
  | 0, _ => []
  | fuel + 1, n =>
    if n < 10 then [digitChar n] else natStrAux fuel (n / 10) ++ [digitChar (n % 10)]

/-- Decimal rendering of a natural number (the `%d` of `fmt.Sprintf`). -/
def natStr (n : Nat) : Str :=
  natStrAux (n + 1) n

/-- Decimal rendering of an integer (the `%d` of `fmt.Sprintf`). -/
def intStr (n : Int) : Str :=
  if n < 0 then '-' :: natStr n.natAbs else natStr n.toNat

/-- A positional placeholder `$n` as produced by `fmt.Sprintf("$%d", n)`. -/
def ph (n : Nat) : Str :=
  '$' :: natStr n

/-- `pgx.Identifier{s}.Sanitize()`: strip NUL, double every inner `"`, and
wrap the result in double quotes. -/
def pgxSanitize (s : Str) : Str :=
  '"' :: ((s.filter (fun c => c ≠ Char.ofNat 0)).map
    (fun c => if c = '"' then ['"', '"'] else [c])).flatten ++ ['"']

/-- A bound SQL argument: the sources append either raw strings (filter
values) or integers (limit/offset) to `[]interface{}`. -/
inductive SqlArg : Type
  | str (s : Str)
  | int (n : Int)
deriving DecidableEq, Repr

/-! ## `pkg/querybuilder` (src/unnamed/part_002) -/

/-- `querybuilder.QueryParams`.  The Go `Filters` field is a map; the
embedding fixes an iteration order by using an association list. -/
structure QueryParams where
  limit : Int
  offset : Int
  sortBy : Str
  sortOrder : Str
  filters : List (Str × Str)
  search : Str

/-- `isReservedParam` (part_002 lines 209-217). -/
def isReservedParam (key : Str) : Bool :=
  ["limit".data, "offset".data, "sort_by".data, "sort_order".data, "q".data].any
    (fun r => equalFoldAscii key r)

/-- `url.Values.Get`: first value for the key, or `""`. -/
def valuesGet (vs : List (Str × List Str)) (k : Str) : Str :=
  match vs.find? (fun p => p.1 == k) with
  | some p => match p.2 with | v :: _ => v | [] => []
  | none => []

/-- `strconv.Atoi`: optional sign followed by at least one digit (overflow,
which Go reports as a range error, cannot occur in the verified
properties). -/
def goAtoi (s : Str) : Option Int :=
  let (sign, digits) : Int × Str :=
    match s with
    | '+' :: rest => (1, rest)
    | '-' :: rest => (-1, rest)
    | _ => (1, s)
  if digits = [] ∨ ¬ digits.all Char.isDigit then none
  else some (sign * (digits.foldl (fun a c => a * 10 + (c.toNat - 48)) 0 : Nat))

/-- `ParseQueryParams` (part_002 lines 21-71). -/
def ParseQueryParams (values : List (Str × List Str)) : QueryParams :=
  let limitStr := valuesGet values "limit".data
  let limit : Int :=
    if limitStr = [] then 25
    else match goAtoi limitStr with
      | some l => if 0 < l then l else 25
      | none => 25
  let offsetStr := valuesGet values "offset".data
  let offset : Int :=
    if offsetStr = [] then 0
    else match goAtoi offsetStr with
      | some o => if 0 ≤ o then o else 0
      | none => 0
  let sortBy := valuesGet values "sort_by".data
  let sortOrder := valuesGet values "sort_order".data
  { limit := limit
    offset := offset
    sortBy := if sortBy = [] then "id".data else sortBy
    sortOrder :=
      if sortOrder = "desc".data ∨ sortOrder = "DESC".data then "DESC".data
      else "ASC".data
    filters := values.filterMap fun p =>
      match p.2 with
      | v :: _ => if isReservedParam p.1 then none else some (p.1, v)
      | [] => none
    search := valuesGet values "q".data }

/-- The free-text-search condition of `BuildWhereClause` (part_002 line 87),
always bound to `$1`. -/
def searchCond : Str :=
  "(to_tsvector('english', to_jsonb(t)::text) @@ plainto_tsquery('english', $1))".data

/-- The `t."col"` field reference of `BuildWhereClause`. -/
def tQuote (col : Str) : Str :=
  "t.\"".data ++ col ++ "\"".data

/-- One iteration of the filter loop of `BuildWhereClause` (part_002 lines
93-148): the conditions and arguments appended for one `(field, value)`
entry, together with the updated argument counter. -/
def whereStep (field value : Str) (argIdx : Nat) : List Str × List SqlArg × Nat :=
  if value = [] then ([], [], argIdx)
  else
    match goSplit field "__".data with
    | [col, op] =>
      let fieldName := tQuote col
      if op = "gt".data then
        ([fieldName ++ " > ".data ++ ph argIdx], [SqlArg.str value], argIdx + 1)
      else if op = "gte".data then
        ([fieldName ++ " >= ".data ++ ph argIdx], [SqlArg.str value], argIdx + 1)
      else if op = "lt".data then
        ([fieldName ++ " < ".data ++ ph argIdx], [SqlArg.str value], argIdx + 1)
      else if op = "lte".data then
        ([fieldName ++ " <= ".data ++ ph argIdx], [SqlArg.str value], argIdx + 1)
      else if op = "ne".data then
        ([fieldName ++ " != ".data ++ ph argIdx], [SqlArg.str value], argIdx + 1)
      else if op = "like".data then
        ([fieldName ++ " ILIKE ".data ++ ph argIdx],
         [SqlArg.str ("%".data ++ value ++ "%".data)], argIdx + 1)
      else if op = "in".data then
        let vals := goSplit value ",".data
        ([fieldName ++ " IN (".data ++
            joinSep ",".data ((List.range' argIdx vals.length).map ph) ++ ")".data],
         vals.map (fun v => SqlArg.str (goTrimSpace v)), argIdx + vals.length)
      else
        ([fieldName ++ " = ".data ++ ph argIdx], [SqlArg.str value], argIdx + 1)
    | _ =>
      ([tQuote field ++ " = ".data ++ ph argIdx], [SqlArg.str value], argIdx + 1)

/-- The filter loop of `BuildWhereClause`, threading the argument counter. -/
def whereFold : List (Str × Str) → Nat → List Str × List SqlArg
  | [], _ => ([], [])
  | f :: rest, argIdx =>
    let s := whereStep f.1 f.2 argIdx
    let r := whereFold rest s.2.2
    (s.1 ++ r.1, s.2.1 ++ r.2)

/-- The condition list and argument list accumulated by `BuildWhereClause`
before joining (search condition first, then the filter loop). -/
def whereCondsArgs (qp : QueryParams) : List Str × List SqlArg :=
  let start : List Str × List SqlArg × Nat :=
    if qp.search ≠ [] then ([searchCond], [SqlArg.str qp.search], 2) else ([], [], 1)
  let rest := whereFold qp.filters start.2.2
  (start.1 ++ rest.1, start.2.1 ++ rest.2)

/-- `BuildWhereClause` (part_002 lines 74-155). -/
def BuildWhereClause (qp : QueryParams) : Str × List SqlArg :=
  if qp.filters = [] ∧ qp.search = [] then ([], [])
  else
    let ca := whereCondsArgs qp
    if ca.1 = [] then ([], [])
    else ("WHERE ".data ++ joinSep " AND ".data ca.1, ca.2)

/-- The sort-column character class of `BuildOrderByClause` (part_002
lines 164-169). -/
def isSortChar (c : Char) : Bool :=
  ('a' ≤ c && c ≤ 'z') || ('A' ≤ c && c ≤ 'Z') || ('0' ≤ c && c ≤ '9') ||
    c = '_' || c = '.'

/-- `BuildOrderByClause` (part_002 lines 158-184). -/
def BuildOrderByClause (qp : QueryParams) : Str :=
  if qp.sortBy = [] then []
  else
    let sanitized0 := qp.sortBy.filter isSortChar
    let sanitized := if sanitized0 = [] then "id".data else sanitized0
    let orderBy := "ORDER BY ".data ++ sanitized ++ " ".data ++ qp.sortOrder
    if sanitized ≠ "id".data then orderBy ++ ", id ".data ++ qp.sortOrder
    else orderBy

/-- `BuildPaginationClause` (part_002 lines 187-206): the placeholder index
is `len(args) + 1` at each append. -/
def BuildPaginationClause (qp : QueryParams) : Str × List SqlArg :=
  if qp.limit ≤ 0 ∧ qp.offset ≤ 0 then ([], [])
  else
    let s1 : List Str × List SqlArg :=
      if 0 < qp.limit then (["LIMIT ".data ++ ph 1], [SqlArg.int qp.limit])
      else ([], [])
    let s2 : List Str × List SqlArg :=
      if 0 < qp.offset then
        (s1.1 ++ ["OFFSET ".data ++ ph (s1.2.length + 1)], s1.2 ++ [SqlArg.int qp.offset])
      else s1
    (joinSep " ".data s2.1, s2.2)

/-! ## `routes/table_handlers.go` -/

/-- `routes.QueryFilter`. -/
structure QueryFilter where
  wheres : List Str
  params : List SqlArg
deriving DecidableEq

/-- One iteration of the `VisitAll` callback of `buildQueryFilters`
(table_handlers.go lines 515-595): the conditions and parameters appended
for one `(key, value)` query argument, with the updated parameter
counter. -/
def queryFilterStep (k v : Str) (paramCounter : Nat) : List Str × List SqlArg × Nat :=
  if k = "page".data ∨ k = "page_size".data ∨ k = "order_by".data ∨
      k = "order_dir".data then
    ([], [], paramCounter)
  else
    match goSplit k ".".data with
    | [column, op] =>
      let ident := pgxSanitize column
      if op = "eq".data then
        ([ident ++ " = ".data ++ ph paramCounter], [SqlArg.str v], paramCounter + 1)
      else if op = "neq".data then
        ([ident ++ " != ".data ++ ph paramCounter], [SqlArg.str v], paramCounter + 1)
      else if op = "gt".data then
        ([ident ++ " > ".data ++ ph paramCounter], [SqlArg.str v], paramCounter + 1)
      else if op = "gte".data then
        ([ident ++ " >= ".data ++ ph paramCounter], [SqlArg.str v], paramCounter + 1)
      else if op = "lt".data then
        ([ident ++ " < ".data ++ ph paramCounter], [SqlArg.str v], paramCounter + 1)
      else if op = "lte".data then
        ([ident ++ " <= ".data ++ ph paramCounter], [SqlArg.str v], paramCounter + 1)
      else if op = "like".data then
        ([ident ++ " LIKE ".data ++ ph paramCounter],
         [SqlArg.str ("%".data ++ v ++ "%".data)], paramCounter + 1)
      else if op = "in".data then
        let vals := goSplit v ",".data
        ([ident ++ " IN (".data ++
            joinSep ", ".data ((List.range' paramCounter vals.length).map ph) ++ ")".data],
         vals.map SqlArg.str, paramCounter + vals.length)
      else
        ([], [], paramCounter)
    | _ =>
      ([pgxSanitize k ++ " = ".data ++ ph paramCounter], [SqlArg.str v], paramCounter + 1)

/-- The `VisitAll` loop of `buildQueryFilters`, threading the counter. -/
def queryFilterFold : List (Str × Str) → Nat → List Str × List SqlArg
  | [], _ => ([], [])
  | f :: rest, pc =>
    let s := queryFilterStep f.1 f.2 pc
    let r := queryFilterFold rest s.2.2
    (s.1 ++ r.1, s.2.1 ++ r.2)

/-- `buildQueryFilters` (table_handlers.go lines 506-598); the argument is
the request's query arguments in visit order. -/
def buildQueryFilters (queryArgs : List (Str × Str)) : QueryFilter :=
  let r := queryFilterFold queryArgs 1
  ⟨r.1, r.2⟩

/-- The page clamp of `GetTableRows` (table_handlers.go lines 125-127). -/
def clampPage (page : Int) : Int :=
  if page < 1 then 1 else page

/-- The page-size clamp of `GetTableRows` (table_handlers.go lines
128-130). -/
def clampPageSize (pageSize : Int) : Int :=
  if pageSize < 1 ∨ 100 < pageSize then 10 else pageSize

/-- The SQL text and bound arguments assembled by `GetTableRows`
(table_handlers.go lines 122-153).  `page` and `pageSize` are the results
of `strconv.Atoi` on the corresponding query parameters (0 on parse
failure); `orderBy` and `orderDir` are the raw `order_by`/`order_dir`
query strings ("asc" by default). -/
def getTableRowsQuery (table : Str) (qf : QueryFilter) (orderBy orderDir : Str)
    (page pageSize : Int) : Str × List SqlArg :=
  let pageSize' := clampPageSize pageSize
  let offset := (clampPage page - 1) * pageSize'
  let q := "SELECT * FROM ".data ++ pgxSanitize table
  let q := if 0 < qf.wheres.length then
    q ++ " WHERE ".data ++ joinSep " AND ".data qf.wheres else q
  let q := if orderBy ≠ [] then
    q ++ " ORDER BY ".data ++ pgxSanitize orderBy ++ " ".data ++ orderDir else q
  (q ++ " LIMIT ".data ++ intStr pageSize' ++ " OFFSET ".data ++ intStr offset,
   qf.params)

/-! ## The ad-hoc statement classifier (src/unnamed/part_004) -/

/-- `trimSpaces` (part_004 lines 717-725): removes every space, newline,
tab and carriage return from the whole string. -/
def trimSpaces (s : Str) : Str :=
  s.filter fun c => !(c = ' ' || c = '\n' || c = '\t' || c = '\r')

/-- `containsString` (part_004 lines 728-732): case-insensitive substring
test, implemented by upper-casing both strings. -/
def containsString (s substr : Str) : Bool :=
  decide (toUpperAscii substr <:+: toUpperAscii s)

/-- `isSelectQuery` (part_004 lines 695-714).  The Go function returns
`(bool, error)` with an always-`nil` error, so it is embedded as the
boolean alone. -/
def isSelectQuery (sql : Str) : Bool :=
  let t := trimSpaces sql
  if 6 ≤ t.length ∧ (t.take 6 = "SELECT".data ∨ t.take 6 = "select".data) then
    !(containsString t "INSERT".data || containsString t "UPDATE".data ||
      containsString t "DELETE".data || containsString t "DROP".data ||
      containsString t "ALTER".data || containsString t "CREATE".data)
  else false

/-! ## The RLS policy lifecycle (src/unnamed/part_004) -/

/-- `routes.RLSPolicy`, restricted to the fields the verified properties
mention (the timestamp fields are never consulted by the modelled code). -/
structure RLSPolicy where
  id : Str
  name : Str
  tableName : Str
  action : Str
  roles : List Str
  definition : Str
  description : Str

/-- `routes.RLSPolicyRequest`. -/
structure RLSPolicyRequest where
  name : Str
  tableName : Str
  action : Str
  roles : List Str
  definition : Str
  description : Str

/-- `rolesArrayToJson` (part_004 lines 570-573). -/
def rolesArrayToJson (roles : List Str) : Str :=
  "[\"".data ++ joinSep "\",\"".data roles ++ "\"]".data

/-- `parseRoles` (part_004 lines 576-595). -/
def parseRoles (rolesJson : Str) : List Str :=
  let trimmed := goTrim rolesJson ['[', ']']
  if trimmed = [] then []
  else
    ((goSplit trimmed ",".data).map (fun part => goTrim part ['"', ' '])).filter
      (fun role => role ≠ [])

/-- The DDL text issued by `dropRLSPolicy` (part_004 lines 558-567). -/
def dropRLSPolicySql (policy : RLSPolicy) : Str :=
  "DROP POLICY IF EXISTS ".data ++ pgxSanitize policy.name ++ " ON ".data ++
    pgxSanitize policy.tableName

/-- The first DDL text issued by `applyRLSPolicy` (part_004 lines
531-537). -/
def enableRlsSql (tableName : Str) : Str :=
  "ALTER TABLE ".data ++ pgxSanitize tableName ++ " ENABLE ROW LEVEL SECURITY".data

/-- The second DDL text issued by `applyRLSPolicy` (part_004 lines
540-547). -/
def createPolicySql (policy : RLSPolicy) : Str :=
  "CREATE POLICY ".data ++ pgxSanitize policy.name ++ " ON ".data ++
    pgxSanitize policy.tableName ++ " FOR ".data ++ toUpperAscii policy.action ++
    " TO ".data ++ joinSep ", ".data policy.roles ++ " USING (".data ++
    policy.definition ++ ")".data

/-- The two commands issued by `applyRLSPolicy`, in order. -/
def applyRLSPolicySqls (policy : RLSPolicy) : List Str :=
  [enableRlsSql policy.tableName, createPolicySql policy]

/-- The (parameterized) metadata UPDATE statement text of `UpdateRLSPolicy`
(part_004 lines 343-357), with the raw string's layout collapsed to single
spaces. -/
def updateRlsMetadataSql : Str :=
  ("UPDATE rls_policies SET name = $1, table_name = $2, action = $3, " ++
   "roles = $4, definition = $5, description = $6, updated_at = NOW() " ++
   "WHERE id = $7 RETURNING id, name, table_name, action, roles, definition, " ++
   "created_at, updated_at, description").data

/-- The policy value scanned back from the `RETURNING` clause of the
metadata UPDATE in `UpdateRLSPolicy`: the request's fields with the stored
id, the roles having gone through the serialize/deserialize round trip. -/
def policyFromUpdate (old : RLSPolicy) (req : RLSPolicyRequest) : RLSPolicy :=
  { old with
    name := req.name
    tableName := req.tableName
    action := req.action
    roles := parseRoles (rolesArrayToJson req.roles)
    definition := req.definition
    description := req.description }

/-- The sequence of database commands issued by the success path of
`UpdateRLSPolicy` (part_004 lines 301-412) after the read-only existence
and uniqueness checks: first the metadata UPDATE, then the drop of the old
enforcement object (built from the pre-update policy), then the two
commands applying the new one. -/
def updateRLSPolicyCommands (old : RLSPolicy) (req : RLSPolicyRequest) : List Str :=
  updateRlsMetadataSql :: dropRLSPolicySql old ::
    applyRLSPolicySqls (policyFromUpdate old req)

/-! ## Observation functions and spec-side predicates -/

/-- Scanner state machine extracting, for each `$` of a SQL fragment, the
maximal run of decimal digits following it (the text of the positional
placeholder).  The second argument is `some run` while inside such a run
(digits collected in reverse). -/
def phScan : Str → Option Str → List Str
  | [], none => []
  | [], some run => [run.reverse]
  | c :: rest, none =>
    if c = '$' then phScan rest (some []) else phScan rest none
  | c :: rest, some run =>
    if c.isDigit then phScan rest (some (c :: run))
    else if c = '$' then run.reverse :: phScan rest (some [])
    else run.reverse :: phScan rest none

/-- The `$n` placeholders of a SQL fragment, in textual order (each as its
digit string). -/
def phIndices (s : Str) : List Str :=
  phScan s none

/-- The first character, if any, is not a decimal digit. -/
def headNotDigit (s : Str) : Prop :=
  ∀ c, s.head? = some c → c.isDigit = false

/-- The operator enumeration of the spec's Filter Predicate data model
(`{eq,neq,gt,gte,lt,lte,like,in}`). -/
def specOps : List Str :=
  ["eq".data, "neq".data, "gt".data, "gte".data, "lt".data, "lte".data,
   "like".data, "in".data]

/-- A `querybuilder` filter key of the form `col__op` with `op` in the
spec's supported operator set and a `$`-free column name. -/
def qbSupportedKey (k : Str) : Bool :=
  match goSplit k "__".data with
  | [col, op] => !col.contains '$' && specOps.contains op
  | _ => false

/-- A `table_handlers` filter key of the form `col.op` with `op` in the
spec's supported operator set and a `$`-free column name. -/
def handlerSupportedKey (k : Str) : Bool :=
  match goSplit k ".".data with
  | [col, op] => !col.contains '$' && specOps.contains op
  | _ => false

/-- The six mutation keywords scanned for by the classifier. -/
def mutationKeywords : List Str :=
  ["INSERT".data, "UPDATE".data, "DELETE".data, "DROP".data, "ALTER".data,
   "CREATE".data]

/-- Modelled from the spec (claim C2's reading of §4.4): classification is
select exactly when the whitespace-stripped text has prefix `SELECT`
compared case-insensitively and the FULL text contains no mutation keyword
case-insensitively.  Written for comparison with `isSelectQuery`, which is
translated from the source. -/
def specIsSelect (sql : Str) : Bool :=
  ("SELECT".data.isPrefixOf (toUpperAscii (trimSpaces sql))) &&
    !(mutationKeywords.any fun kw => containsString sql kw)

/-- Restatement of `isSelectQuery` in prefix/keyword vocabulary, used as
the amended form of claim C2: the prefix test only accepts the two exact
spellings `SELECT` and `select`, and the keyword scan runs over the
whitespace-stripped text. -/
def amendedIsSelect (sql : Str) : Bool :=
  let t := trimSpaces sql
  ("SELECT".data.isPrefixOf t || "select".data.isPrefixOf t) &&
    !(mutationKeywords.any fun kw => containsString t kw)

/-! ## Lemmas: the placeholder scanner -/

theorem phScan_close {c : Char} (rest run : Str) (hc : c.isDigit = false) :
    phScan (c :: rest) (some run) = run.reverse :: phScan (c :: rest) none := by
  by_cases h : c = '$'
  · subst h; simp [phScan]
  · simp [phScan, hc, h]

theorem phScan_append (a : Str) : ∀ (st : Option Str) (b : Str), headNotDigit b →
    phScan (a ++ b) st = phScan a st ++ phScan b none := by
  induction a with
  | nil =>
    intro st b hb
    cases st with
    | none => simp [phScan]
    | some run =>
      cases b with
      | nil => simp [phScan]
      | cons c rest =>
        have hc : c.isDigit = false := hb c rfl
        rw [List.nil_append, phScan_close rest run hc]
        simp [phScan]
  | cons x xs ih =>
    intro st b hb
    cases st with
    | none =>
      simp only [List.cons_append, phScan]
      by_cases hx : x = '$' <;> simp [hx, ih _ b hb]
    | some run =>
      simp only [List.cons_append, phScan]
      by_cases hd : x.isDigit
      · simp [hd, ih _ b hb]
      · by_cases hx : x = '$' <;> simp [hd, hx, ih _ b hb]

theorem phScan_no_dollar (a : Str) (ha : '$' ∉ a) : phScan a none = [] := by
  induction a with
  | nil => rfl
  | cons x xs ih =>
    have hx : ¬ x = '$' := by
      intro h; exact ha (by rw [h]; exact List.mem_cons_self _ _)
    simp [phScan, hx, ih (fun h => ha (List.mem_cons_of_mem _ h))]

theorem phScan_digits (d : Str) (hd : ∀ c ∈ d, c.isDigit = true) :
    ∀ (X run : Str), phScan (d ++ X) (some run) = phScan X (some (d.reverse ++ run)) := by
  induction d with
  | nil => intro X run; simp
  | cons c cs ih =>
    intro X run
    have hc : c.isDigit = true := hd c (List.mem_cons_self c cs)
    simp only [List.cons_append, phScan, hc, if_pos, List.append_eq]
    rw [ih (fun x hx => hd x (List.mem_cons_of_mem _ hx)) X (c :: run)]
    simp [List.append_assoc]

/-! ## Lemmas: decimal rendering -/

theorem digitChar_isDigit {d : Nat} (h : d < 10) : (digitChar d).isDigit = true := by
  interval_cases d <;> decide

theorem natStrAux_digits : ∀ (fuel n : Nat), ∀ c ∈ natStrAux fuel n, c.isDigit = true := by
  intro fuel
  induction fuel with
  | zero => intro n c hc; simp [natStrAux] at hc
  | succ fuel ih =>
    intro n c hc
    by_cases h : n < 10
    · simp [natStrAux, h] at hc
      rw [hc]; exact digitChar_isDigit h
    · simp [natStrAux, h] at hc
      rcases hc with hc | hc
      · exact ih _ c hc
      · rw [hc]; exact digitChar_isDigit (Nat.mod_lt _ (by omega))

theorem natStr_digits (n : Nat) : ∀ c ∈ natStr n, c.isDigit = true :=
  natStrAux_digits (n + 1) n

theorem natStr_no_dollar (n : Nat) : '$' ∉ natStr n := by
  intro h
  have := natStr_digits n '$' h
  simp at this

theorem natStr_ne_nil (n : Nat) : natStr n ≠ [] := by
  unfold natStr natStrAux
  by_cases h : n < 10 <;> simp [h]

theorem phIndices_ph_append (n : Nat) (X : Str) (hX : headNotDigit X) :
    phIndices (ph n ++ X) = natStr n :: phIndices X := by
  show phScan (('$' :: natStr n) ++ X) none = _
  rw [List.cons_append,
    show phScan ('$' :: (natStr n ++ X)) none = phScan (natStr n ++ X) (some []) from by
      simp [phScan]]
  rw [phScan_digits (natStr n) (natStr_digits n) X []]
  cases X with
  | nil => simp [phScan, phIndices]
  | cons c rest =>
    have hc : c.isDigit = false := hX c rfl
    rw [phScan_close rest _ hc]
    simp [phIndices]

theorem phIndices_append_left (A X : Str) (hA : '$' ∉ A) (hX : headNotDigit X) :
    phIndices (A ++ X) = phIndices X := by
  unfold phIndices
  rw [phScan_append A none X hX, phScan_no_dollar A hA]
  simp

theorem joinSep_head (sep y : Str) (ys : List Str) (hy : y ≠ []) :
    (joinSep sep (y :: ys)).head? = y.head? := by
  cases ys with
  | nil => rfl
  | cons z zs =>
    cases y with
    | nil => exact absurd rfl hy
    | cons a as => rfl

theorem head?_append_left {l l2 : Str} {c : Char} (h : l.head? = some c) :
    (l ++ l2).head? = some c := by
  cases l with
  | nil => simp at h
  | cons a as => simpa using h

theorem phIndices_join (sep : Str) (h1 : '$' ∉ sep) (h2 : headNotDigit sep)
    (h3 : sep ≠ []) :
    ∀ cs : List Str, (∀ c ∈ cs, c ≠ [] ∧ headNotDigit c) →
      phIndices (joinSep sep cs) = (cs.map phIndices).flatten := by
  intro cs
  induction cs with
  | nil => intro _; rfl
  | cons x ys ih =>
    intro h
    cases ys with
    | nil => simp [joinSep]
    | cons y zs =>
      have hy := h y (List.mem_cons_of_mem _ (List.mem_cons_self _ _))
      have e : joinSep sep (x :: y :: zs) = x ++ (sep ++ joinSep sep (y :: zs)) := by
        simp [joinSep, List.append_assoc]
      rw [e]
      have hjoinhead : headNotDigit (joinSep sep (y :: zs)) := by
        intro c hc
        rw [joinSep_head sep y zs hy.1] at hc
        exact hy.2 c hc
      have hbhead : headNotDigit (sep ++ joinSep sep (y :: zs)) := by
        intro c hc
        cases sep with
        | nil => exact absurd rfl h3
        | cons s ss => exact h2 c (by simpa using hc)
      show phScan (x ++ (sep ++ joinSep sep (y :: zs))) none = _
      rw [phScan_append x none _ hbhead,
        show phScan (sep ++ joinSep sep (y :: zs)) none = phIndices (joinSep sep (y :: zs)) from
          phIndices_append_left sep _ h1 hjoinhead]
      rw [ih (fun c hc => h c (List.mem_cons_of_mem _ hc))]
      simp [phIndices]

theorem phIndices_phjoin (sep : Str) (h1 : '$' ∉ sep) (h2 : headNotDigit sep)
    (h3 : sep ≠ []) :
    ∀ (m i : Nat),
      phIndices (joinSep sep ((List.range' i m).map ph) ++ ")".data) =
        (List.range' i m).map natStr := by
  intro m
  induction m with
  | zero =>
    intro i
    show phIndices (joinSep sep ((List.range' i 0).map ph) ++ ")".data) = _
    simp only [List.range'_zero, List.map_nil, joinSep, List.nil_append]
    decide
  | succ m ih =>
    intro i
    rw [List.range'_succ]
    cases m with
    | zero =>
      simp only [List.range'_zero, List.map_cons, List.map_nil, joinSep]
      rw [phIndices_ph_append i _ (by intro c hc; simp at hc; rw [← hc]; decide)]
      simp
      decide
    | succ m' =>
      have hrest : (List.range' (i + 1) (m' + 1)).map ph =
          ph (i + 1) :: (List.range' (i + 2) m').map ph := by
        rw [List.range'_succ]; rfl
      simp only [List.map_cons]
      have e : joinSep sep (ph i :: (List.range' (i + 1) (m' + 1)).map ph) =
          ph i ++ (sep ++ joinSep sep ((List.range' (i + 1) (m' + 1)).map ph)) := by
        rw [hrest]; simp [joinSep, List.append_assoc]
      rw [e, List.append_assoc, List.append_assoc]
      have hJ : (joinSep sep ((List.range' (i + 1) (m' + 1)).map ph)).head? = some '$' := by
        rw [hrest, joinSep_head sep _ _ (by simp [ph])]
        rfl
      rw [phIndices_ph_append i _ (by
        intro c hc
        cases sep with
        | nil => exact absurd rfl h3
        | cons s ss =>
          simp at hc
          rw [← hc]; exact h2 s rfl)]
      rw [phIndices_append_left sep _ h1 (by
        intro c hc
        rw [head?_append_left hJ] at hc
        simp at hc
        rw [← hc]; decide)]
      rw [show ([')'] : Str) = ")".data from rfl, ih (i + 1)]

/-! ## Lemmas: the translated SQL fragments -/

theorem goSplitF_ne_nil : ∀ (fuel : Nat) (sep s : Str), goSplitF sep fuel s ≠ [] := by
  intro fuel
  induction fuel with
  | zero => intro sep s; simp [goSplitF]
  | succ fuel ih =>
    intro sep s
    cases s with
    | nil => simp [goSplitF]
    | cons c rest =>
      simp only [goSplitF]
      split
      · simp
      · split <;> simp

theorem goSplit_ne_nil (s sep : Str) : goSplit s sep ≠ [] :=
  goSplitF_ne_nil _ _ _

theorem tQuote_no_dollar (col : Str) (h : '$' ∉ col) : '$' ∉ tQuote col := by
  intro hc
  unfold tQuote at hc
  rcases List.mem_append.1 hc with hc1 | hc1
  · rcases List.mem_append.1 hc1 with hc2 | hc2
    · exact absurd hc2 (by decide)
    · exact h hc2
  · exact absurd hc1 (by decide)

theorem pgxSanitize_no_dollar (col : Str) (h : '$' ∉ col) : '$' ∉ pgxSanitize col := by
  intro hc
  simp [pgxSanitize, List.mem_flatten] at hc
  obtain ⟨c, ⟨hcmem, -⟩, hcin⟩ := hc
  by_cases hq : c = '"'
  · simp [hq] at hcin
  · simp [hq] at hcin
    exact h (hcin ▸ hcmem)

theorem phIndices_ph (n : Nat) : phIndices (ph n) = [natStr n] := by
  have h := phIndices_ph_append n [] (by intro c hc; simp at hc)
  simpa using h

theorem phIndices_field_scalar (A : Str) (hA : '$' ∉ A) (n : Nat) :
    phIndices (A ++ ph n) = [natStr n] := by
  rw [phIndices_append_left A _ hA (by intro c hc; simp [ph] at hc; rw [← hc]; decide),
    phIndices_ph]

theorem phIndices_field_inlist (A sep : Str) (hA : '$' ∉ A) (h1 : '$' ∉ sep)
    (h2 : headNotDigit sep) (h3 : sep ≠ []) (i m : Nat) :
    phIndices (A ++ (joinSep sep ((List.range' i m).map ph) ++ ")".data)) =
      (List.range' i m).map natStr := by
  have hX : headNotDigit (joinSep sep ((List.range' i m).map ph) ++ ")".data) := by
    cases m with
    | zero =>
      intro c hc
      simp [joinSep] at hc
      rw [← hc]; decide
    | succ m' =>
      intro c hc
      have hhd : (joinSep sep ((List.range' i (m' + 1)).map ph)).head? = some '$' := by
        rw [List.range'_succ, List.map_cons, joinSep_head sep _ _ (by simp [ph])]
        rfl
      rw [head?_append_left hhd] at hc
      injection hc with hc
      rw [← hc]; decide
  rw [phIndices_append_left A _ hA hX, phIndices_phjoin sep h1 h2 h3 m i]

theorem whereStep_spec (k v : Str) (i : Nat) (hv : v ≠ []) (hk : qbSupportedKey k = true) :
    ∃ cond args, whereStep k v i = ([cond], args, i + args.length) ∧
      args ≠ [] ∧ cond.head? = some 't' ∧
      phIndices cond = (List.range' i args.length).map natStr := by
  match hsp : goSplit k "__".data with
  | [] => simp [qbSupportedKey, hsp] at hk
  | [col] => simp [qbSupportedKey, hsp] at hk
  | col :: op :: r :: rs => simp [qbSupportedKey, hsp] at hk
  | [col, op] =>
    simp only [qbSupportedKey, hsp, Bool.and_eq_true] at hk
    have hcol : '$' ∉ col := by simpa using hk.1
    have hop : op ∈ specOps := by simpa using hk.2
    have hA : ∀ mid : Str, '$' ∉ mid → '$' ∉ tQuote col ++ mid := by
      intro mid hm hmem
      rcases List.mem_append.1 hmem with hx | hx
      · exact tQuote_no_dollar col hcol hx
      · exact hm hx
    simp only [specOps, List.mem_cons, List.not_mem_nil, or_false] at hop
    rcases hop with h | h | h | h | h | h | h | h <;> subst h
    · -- eq: falls through to the default equality branch
      refine ⟨tQuote col ++ " = ".data ++ ph i, [SqlArg.str v], ?_, by simp, rfl, ?_⟩
      · simp +decide [whereStep, hsp, hv]
      · rw [phIndices_field_scalar _ (hA _ (by decide)) i]; simp
    · -- neq: also the default equality branch
      refine ⟨tQuote col ++ " = ".data ++ ph i, [SqlArg.str v], ?_, by simp, rfl, ?_⟩
      · simp +decide [whereStep, hsp, hv]
      · rw [phIndices_field_scalar _ (hA _ (by decide)) i]; simp
    · -- gt
      refine ⟨tQuote col ++ " > ".data ++ ph i, [SqlArg.str v], ?_, by simp, rfl, ?_⟩
      · simp +decide [whereStep, hsp, hv]
      · rw [phIndices_field_scalar _ (hA _ (by decide)) i]; simp
    · -- gte
      refine ⟨tQuote col ++ " >= ".data ++ ph i, [SqlArg.str v], ?_, by simp, rfl, ?_⟩
      · simp +decide [whereStep, hsp, hv]
      · rw [phIndices_field_scalar _ (hA _ (by decide)) i]; simp
    · -- lt
      refine ⟨tQuote col ++ " < ".data ++ ph i, [SqlArg.str v], ?_, by simp, rfl, ?_⟩
      · simp +decide [whereStep, hsp, hv]
      · rw [phIndices_field_scalar _ (hA _ (by decide)) i]; simp
    · -- lte
      refine ⟨tQuote col ++ " <= ".data ++ ph i, [SqlArg.str v], ?_, by simp, rfl, ?_⟩
      · simp +decide [whereStep, hsp, hv]
      · rw [phIndices_field_scalar _ (hA _ (by decide)) i]; simp
    · -- like
      refine ⟨tQuote col ++ " ILIKE ".data ++ ph i,
        [SqlArg.str ("%".data ++ v ++ "%".data)], ?_, by simp, rfl, ?_⟩
      · simp +decide [whereStep, hsp, hv]
      · rw [phIndices_field_scalar _ (hA _ (by decide)) i]; simp
    · -- in
      refine ⟨tQuote col ++ " IN (".data ++
          joinSep ",".data ((List.range' i (goSplit v ",".data).length).map ph) ++ ")".data,
        (goSplit v ",".data).map (fun x => SqlArg.str (goTrimSpace x)), ?_, ?_, rfl, ?_⟩
      · simp +decide [whereStep, hsp, hv]
      · simp [goSplit_ne_nil]
      · rw [List.append_assoc,
          phIndices_field_inlist _ ",".data (hA _ (by decide)) (by decide)
            (by intro c hc; simp at hc; rw [← hc]; decide) (by decide) i _]
        simp

theorem queryFilterStep_spec (k v : Str) (i : Nat) (hk : handlerSupportedKey k = true) :
    ∃ cond args, queryFilterStep k v i = ([cond], args, i + args.length) ∧
      args ≠ [] ∧ cond.head? = some '"' ∧
      phIndices cond = (List.range' i args.length).map natStr := by
  match hsp : goSplit k ".".data with
  | [] => simp [handlerSupportedKey, hsp] at hk
  | [col] => simp [handlerSupportedKey, hsp] at hk
  | col :: op :: r :: rs => simp [handlerSupportedKey, hsp] at hk
  | [col, op] =>
    simp only [handlerSupportedKey, hsp, Bool.and_eq_true] at hk
    have hcol : '$' ∉ col := by simpa using hk.1
    have hop : op ∈ specOps := by simpa using hk.2
    have hres : ¬(k = "page".data ∨ k = "page_size".data ∨ k = "order_by".data ∨
        k = "order_dir".data) := by
      rintro (h | h | h | h)
      · subst h
        rw [show goSplit "page".data ".".data = ["page".data] from by decide] at hsp
        simp at hsp
      · subst h
        rw [show goSplit "page_size".data ".".data = ["page_size".data] from by decide] at hsp
        simp at hsp
      · subst h
        rw [show goSplit "order_by".data ".".data = ["order_by".data] from by decide] at hsp
        simp at hsp
      · subst h
        rw [show goSplit "order_dir".data ".".data = ["order_dir".data] from by decide] at hsp
        simp at hsp
    have hA : ∀ mid : Str, '$' ∉ mid → '$' ∉ pgxSanitize col ++ mid := by
      intro mid hm hmem
      rcases List.mem_append.1 hmem with hx | hx
      · exact pgxSanitize_no_dollar col hcol hx
      · exact hm hx
    simp only [specOps, List.mem_cons, List.not_mem_nil, or_false] at hop
    rcases hop with h | h | h | h | h | h | h | h <;> subst h
    · -- eq
      refine ⟨pgxSanitize col ++ " = ".data ++ ph i, [SqlArg.str v], ?_, by simp, rfl, ?_⟩
      · simp +decide [queryFilterStep, hsp, hres]
      · rw [phIndices_field_scalar _ (hA _ (by decide)) i]; simp
    · -- neq
      refine ⟨pgxSanitize col ++ " != ".data ++ ph i, [SqlArg.str v], ?_, by simp, rfl, ?_⟩
      · simp +decide [queryFilterStep, hsp, hres]
      · rw [phIndices_field_scalar _ (hA _ (by decide)) i]; simp
    · -- gt
      refine ⟨pgxSanitize col ++ " > ".data ++ ph i, [SqlArg.str v], ?_, by simp, rfl, ?_⟩
      · simp +decide [queryFilterStep, hsp, hres]
      · rw [phIndices_field_scalar _ (hA _ (by decide)) i]; simp
    · -- gte
      refine ⟨pgxSanitize col ++ " >= ".data ++ ph i, [SqlArg.str v], ?_, by simp, rfl, ?_⟩
      · simp +decide [queryFilterStep, hsp, hres]
      · rw [phIndices_field_scalar _ (hA _ (by decide)) i]; simp
    · -- lt
      refine ⟨pgxSanitize col ++ " < ".data ++ ph i, [SqlArg.str v], ?_, by simp, rfl, ?_⟩
      · simp +decide [queryFilterStep, hsp, hres]
      · rw [phIndices_field_scalar _ (hA _ (by decide)) i]; simp
    · -- lte
      refine ⟨pgxSanitize col ++ " <= ".data ++ ph i, [SqlArg.str v], ?_, by simp, rfl, ?_⟩
      · simp +decide [queryFilterStep, hsp, hres]
      · rw [phIndices_field_scalar _ (hA _ (by decide)) i]; simp
    · -- like
      refine ⟨pgxSanitize col ++ " LIKE ".data ++ ph i,
        [SqlArg.str ("%".data ++ v ++ "%".data)], ?_, by simp, rfl, ?_⟩
      · simp +decide [queryFilterStep, hsp, hres]
      · rw [phIndices_field_scalar _ (hA _ (by decide)) i]; simp
    · -- in
      refine ⟨pgxSanitize col ++ " IN (".data ++
          joinSep ", ".data ((List.range' i (goSplit v ",".data).length).map ph) ++ ")".data,
        (goSplit v ",".data).map SqlArg.str, ?_, ?_, rfl, ?_⟩
      · simp +decide [queryFilterStep, hsp, hres]
      · simp [goSplit_ne_nil]
      · rw [List.append_assoc,
          phIndices_field_inlist _ ", ".data (hA _ (by decide)) (by decide)
            (by intro c hc; simp at hc; rw [← hc]; decide) (by decide) i _]
        simp

theorem whereFold_spec : ∀ (fs : List (Str × Str)) (i : Nat),
    (∀ p ∈ fs, p.2 ≠ [] ∧ qbSupportedKey p.1 = true) →
    (whereFold fs i).1.length = fs.length ∧
    (∀ c ∈ (whereFold fs i).1, c ≠ [] ∧ headNotDigit c) ∧
    ((whereFold fs i).1.map phIndices).flatten =
      (List.range' i (whereFold fs i).2.length).map natStr := by
  intro fs
  induction fs with
  | nil =>
    intro i _
    refine ⟨rfl, by intro c hc; simp [whereFold] at hc, ?_⟩
    simp [whereFold, phIndices]
  | cons f rest ih =>
    intro i h
    obtain ⟨cond, args, hstep, hargs, hhead, hph⟩ :=
      whereStep_spec f.1 f.2 i (h f (List.mem_cons_self _ _)).1
        (h f (List.mem_cons_self _ _)).2
    have hrest := ih (i + args.length) (fun p hp => h p (List.mem_cons_of_mem _ hp))
    have hcond_ne : cond ≠ [] := by
      intro e; rw [e] at hhead; simp at hhead
    have hcond_hnd : headNotDigit cond := by
      intro c hc
      rw [hhead] at hc
      injection hc with hc
      rw [← hc]; decide
    simp only [whereFold, hstep]
    refine ⟨?_, ?_, ?_⟩
    · simp [hrest.1]
    · intro c hc
      rcases List.mem_append.1 hc with hc | hc
      · simp at hc
        rw [hc]
        exact ⟨hcond_ne, hcond_hnd⟩
      · exact hrest.2.1 c hc
    · simp only [List.map_append, List.flatten_append, List.map_cons, List.map_nil,
        List.flatten_cons, List.flatten_nil, List.append_nil]
      rw [hph, hrest.2.2, ← List.map_append, List.range'_append_1]
      congr 1
      simp [Nat.add_comm]

theorem queryFilterFold_spec : ∀ (fs : List (Str × Str)) (i : Nat),
    (∀ p ∈ fs, handlerSupportedKey p.1 = true) →
    (queryFilterFold fs i).1.length = fs.length ∧
    (∀ c ∈ (queryFilterFold fs i).1, c ≠ [] ∧ headNotDigit c) ∧
    ((queryFilterFold fs i).1.map phIndices).flatten =
      (List.range' i (queryFilterFold fs i).2.length).map natStr := by
  intro fs
  induction fs with
  | nil =>
    intro i _
    refine ⟨rfl, by intro c hc; simp [queryFilterFold] at hc, ?_⟩
    simp [queryFilterFold, phIndices]
  | cons f rest ih =>
    intro i h
    obtain ⟨cond, args, hstep, hargs, hhead, hph⟩ :=
      queryFilterStep_spec f.1 f.2 i (h f (List.mem_cons_self _ _))
    have hrest := ih (i + args.length) (fun p hp => h p (List.mem_cons_of_mem _ hp))
    have hcond_ne : cond ≠ [] := by
      intro e; rw [e] at hhead; simp at hhead
    have hcond_hnd : headNotDigit cond := by
      intro c hc
      rw [hhead] at hc
      injection hc with hc
      rw [← hc]; decide
    simp only [queryFilterFold, hstep]
    refine ⟨?_, ?_, ?_⟩
    · simp [hrest.1]
    · intro c hc
      rcases List.mem_append.1 hc with hc | hc
      · simp at hc
        rw [hc]
        exact ⟨hcond_ne, hcond_hnd⟩
      · exact hrest.2.1 c hc
    · simp only [List.map_append, List.flatten_append, List.map_cons, List.map_nil,
        List.flatten_cons, List.flatten_nil, List.append_nil]
      rw [hph, hrest.2.2, ← List.map_append, List.range'_append_1]
      congr 1
      simp [Nat.add_comm]

/-! ## Claim theorems -/

/-- Claim C8 (confirmed): serializing the roles list `["admin","editor"]`
with `rolesArrayToJson` and deserializing with `parseRoles` yields the
identical ordered list. -/
theorem C8_roles_round_trip :
    parseRoles (rolesArrayToJson ["admin".data, "editor".data]) =
      ["admin".data, "editor".data] := by
  decide

/-- Claim C9 (confirmed): `ParseQueryParams` always produces a `SortOrder`
that is exactly `ASC` or `DESC`; it is `DESC` precisely when the
`sort_order` query value is `desc` or `DESC`, and `ASC` in every other
case, so caller-supplied text never reaches the sort direction. -/
theorem C9_sort_order_whitelist (values : List (Str × List Str)) :
    ((ParseQueryParams values).sortOrder = "ASC".data ∨
      (ParseQueryParams values).sortOrder = "DESC".data) ∧
    ((ParseQueryParams values).sortOrder = "DESC".data ↔
      (valuesGet values "sort_order".data = "desc".data ∨
        valuesGet values "sort_order".data = "DESC".data)) := by
  unfold ParseQueryParams
  by_cases h : valuesGet values "sort_order".data = "desc".data ∨
      valuesGet values "sort_order".data = "DESC".data
  · simp +decide [h]
  · simp +decide [h]

/-- Claim C7 counterexample: on the success path of `UpdateRLSPolicy`, the
FIRST database command issued is the metadata UPDATE, not the drop of the
old enforcement object, refuting the claimed drop-update-apply order at a
concrete policy and request. -/
theorem C7_counterexample :
    (updateRLSPolicyCommands
        ⟨"7".data, "p1".data, "t1".data, "select".data, ["admin".data], "true".data, []⟩
        ⟨"p2".data, "t2".data, "update".data, ["editor".data], "false".data, []⟩).head? =
      some updateRlsMetadataSql ∧
    (updateRLSPolicyCommands
        ⟨"7".data, "p1".data, "t1".data, "select".data, ["admin".data], "true".data, []⟩
        ⟨"p2".data, "t2".data, "update".data, ["editor".data], "false".data, []⟩)[1]? =
      some ("DROP POLICY IF EXISTS \"p1\" ON \"t1\"".data) ∧
    updateRlsMetadataSql ≠ "DROP POLICY IF EXISTS \"p1\" ON \"t1\"".data := by
  set_option maxRecDepth 4000 in decide

/-- Claim C7 (amended): on every policy update, the effects occur in the
order metadata-update first, then drop of the previous enforcement object
(located from the pre-update metadata), then the application (RLS enable
plus CREATE POLICY) of the new enforcement object. -/
theorem C7_update_effect_order (old : RLSPolicy) (req : RLSPolicyRequest) :
    updateRLSPolicyCommands old req =
      [updateRlsMetadataSql,
       "DROP POLICY IF EXISTS ".data ++ pgxSanitize old.name ++ " ON ".data ++
         pgxSanitize old.tableName,
       enableRlsSql req.tableName,
       createPolicySql (policyFromUpdate old req)] :=
  rfl

/-- Claim C10 (confirmed): `BuildWhereClause` skips every filter entry with
an empty value entirely (no condition, no bound argument), and when all
filters are empty-valued and there is no free-text search it returns the
empty fragment with the empty argument list. -/
theorem C10_empty_values_skipped :
    (∀ field i, whereStep field [] i = ([], [], i)) ∧
    (∀ qp : QueryParams, (∀ p ∈ qp.filters, p.2 = []) → qp.search = [] →
      BuildWhereClause qp = ([], [])) := by
  constructor
  · intro field i; simp [whereStep]
  · intro qp hf hs
    have hfold : ∀ fs, (∀ p ∈ fs, p.2 = ([] : Str)) → ∀ i, whereFold fs i = ([], []) := by
      intro fs
      induction fs with
      | nil => intro _ i; rfl
      | cons f rest ih =>
        intro h i
        have h1 : f.2 = [] := h f (List.mem_cons_self _ _)
        simp [whereFold, whereStep, h1, ih (fun p hp => h p (List.mem_cons_of_mem _ hp))]
    unfold BuildWhereClause
    by_cases he : qp.filters = []
    · simp [he, hs]
    · rw [if_neg (fun hand => he hand.1)]
      simp [whereCondsArgs, hs, hfold qp.filters hf]

/-- Claim C10 witness: a request whose filters are all empty-valued, with
no search, translates to the empty fragment and empty argument list. -/
theorem C10_witness :
    BuildWhereClause
      ⟨25, 0, "id".data, "ASC".data, [("a__gt".data, []), ("b".data, [])], []⟩ =
      ([], []) :=
  C10_empty_values_skipped.2 _ (by decide) rfl

/-- Claim C1 counterexample: the filter translation has no error result at
all.  An `in` filter whose value splits into only empty elements (value
`","`) is translated to an `IN ($1,$2)` clause binding two empty strings;
an `in` filter with the empty value is silently skipped by
`BuildWhereClause`, while `buildQueryFilters` translates it to `IN ($1)`
binding one empty string.  No input is rejected. -/
theorem C1_counterexample :
    BuildWhereClause ⟨25, 0, "id".data, "ASC".data, [("col__in".data, ",".data)], []⟩ =
      ("WHERE t.\"col\" IN ($1,$2)".data, [SqlArg.str [], SqlArg.str []]) ∧
    BuildWhereClause ⟨25, 0, "id".data, "ASC".data, [("col__in".data, [])], []⟩ =
      ([], []) ∧
    buildQueryFilters [("col.in".data, [])] =
      ⟨["\"col\" IN ($1)".data], [SqlArg.str []]⟩ := by
  decide

/-- Claim C1 (amended): the filter translation cannot produce an error; a
non-empty `in` value always splits into at least one element, each bound
as its own parameter, so an empty `IN ()` list is never emitted on either
translation path, and an empty-valued `in` filter contributes nothing at
all on the querybuilder path. -/
theorem C1_in_list_never_empty :
    (∀ field col v i, goSplit field "__".data = [col, "in".data] → v ≠ [] →
      whereStep field v i =
        ([tQuote col ++ " IN (".data ++
            joinSep ",".data ((List.range' i (goSplit v ",".data).length).map ph) ++
            ")".data],
         (goSplit v ",".data).map (fun x => SqlArg.str (goTrimSpace x)),
         i + (goSplit v ",".data).length) ∧
      1 ≤ (goSplit v ",".data).length) ∧
    (∀ field i, whereStep field [] i = ([], [], i)) ∧
    (∀ k col v i, goSplit k ".".data = [col, "in".data] →
      queryFilterStep k v i =
        ([pgxSanitize col ++ " IN (".data ++
            joinSep ", ".data ((List.range' i (goSplit v ",".data).length).map ph) ++
            ")".data],
         (goSplit v ",".data).map SqlArg.str, i + (goSplit v ",".data).length) ∧
      1 ≤ (goSplit v ",".data).length) := by
  refine ⟨?_, ?_, ?_⟩
  · intro field col v i hsp hv
    refine ⟨by simp +decide [whereStep, hsp, hv], ?_⟩
    have := goSplit_ne_nil v ",".data
    cases hc : goSplit v ",".data with
    | nil => exact absurd hc this
    | cons a as => simp
  · intro field i; simp [whereStep]
  · intro k col v i hsp
    have hres : ¬(k = "page".data ∨ k = "page_size".data ∨ k = "order_by".data ∨
        k = "order_dir".data) := by
      rintro (h | h | h | h)
      · subst h
        rw [show goSplit "page".data ".".data = ["page".data] from by decide] at hsp
        simp at hsp
      · subst h
        rw [show goSplit "page_size".data ".".data = ["page_size".data] from by decide] at hsp
        simp at hsp
      · subst h
        rw [show goSplit "order_by".data ".".data = ["order_by".data] from by decide] at hsp
        simp at hsp
      · subst h
        rw [show goSplit "order_dir".data ".".data = ["order_dir".data] from by decide] at hsp
        simp at hsp
    refine ⟨by simp +decide [queryFilterStep, hsp, hres], ?_⟩
    have := goSplit_ne_nil v ",".data
    cases hc : goSplit v ",".data with
    | nil => exact absurd hc this
    | cons a as => simp

/-- Claim C1 witness: the amended statement evaluated at the inputs of the
counterexample. -/
theorem C1_witness :
    (whereStep "col__in".data ",".data 1 =
      ([tQuote "col".data ++ " IN (".data ++
          joinSep ",".data ((List.range' 1 (goSplit ",".data ",".data).length).map ph) ++
          ")".data],
       (goSplit ",".data ",".data).map (fun x => SqlArg.str (goTrimSpace x)),
       1 + (goSplit ",".data ",".data).length) ∧
      1 ≤ (goSplit ",".data ",".data).length) ∧
    (queryFilterStep "col.in".data [] 1 =
      ([pgxSanitize "col".data ++ " IN (".data ++
          joinSep ", ".data ((List.range' 1 (goSplit [] ",".data).length).map ph) ++
          ")".data],
       (goSplit [] ",".data).map SqlArg.str, 1 + (goSplit [] ",".data).length) ∧
      1 ≤ (goSplit [] ",".data).length) :=
  ⟨C1_in_list_never_empty.1 "col__in".data "col".data ",".data 1 (by decide) (by decide),
   C1_in_list_never_empty.2.2 "col.in".data "col".data [] 1 (by decide)⟩

/-- Claim C5 counterexample: the handler translation path emits a
case-sensitive `LIKE` comparison (no `ILIKE` appears in the fragment),
refuting case-insensitivity on every path that supports `like`. -/
theorem C5_counterexample :
    (buildQueryFilters [("name.like".data, "bob".data)]).wheres =
      ["\"name\" LIKE $1".data] ∧
    (buildQueryFilters [("name.like".data, "bob".data)]).params =
      [SqlArg.str "%bob%".data] ∧
    ¬("ILIKE".data <:+: "\"name\" LIKE $1".data) := by
  decide

/-- Claim C5 (amended): on the querybuilder path a `like` filter with a
NON-empty value binds the pattern `%v%` as a single parameter under the
case-insensitive `ILIKE` comparison, while an empty `like` value is
skipped entirely (no clause, no parameter); on the handler path every
`like` value, the empty one included, binds `%v%` as a single parameter
under the case-SENSITIVE `LIKE` comparison — so case-insensitive matching
does not hold on every translation path that supports `like`. -/
theorem C5_like_translation :
    (∀ k col v i, goSplit k "__".data = [col, "like".data] → v ≠ [] →
      whereStep k v i =
        ([tQuote col ++ " ILIKE ".data ++ ph i],
         [SqlArg.str ("%".data ++ v ++ "%".data)], i + 1)) ∧
    (∀ k col i, goSplit k "__".data = [col, "like".data] →
      whereStep k [] i = ([], [], i)) ∧
    (∀ k col v i, goSplit k ".".data = [col, "like".data] →
      queryFilterStep k v i =
        ([pgxSanitize col ++ " LIKE ".data ++ ph i],
         [SqlArg.str ("%".data ++ v ++ "%".data)], i + 1)) := by
  refine ⟨?_, ?_, ?_⟩
  · intro k col v i hsp hv
    simp +decide [whereStep, hsp, hv]
  · intro k col i _
    simp [whereStep]
  · intro k col v i hsp
    have hres : ¬(k = "page".data ∨ k = "page_size".data ∨ k = "order_by".data ∨
        k = "order_dir".data) := by
      rintro (h | h | h | h)
      · subst h
        rw [show goSplit "page".data ".".data = ["page".data] from by decide] at hsp
        simp at hsp
      · subst h
        rw [show goSplit "page_size".data ".".data = ["page_size".data] from by decide] at hsp
        simp at hsp
      · subst h
        rw [show goSplit "order_by".data ".".data = ["order_by".data] from by decide] at hsp
        simp at hsp
      · subst h
        rw [show goSplit "order_dir".data ".".data = ["order_dir".data] from by decide] at hsp
        simp at hsp
    simp +decide [queryFilterStep, hsp, hres]

/-- Claim C5 witness: the amended statement evaluated at a concrete `like`
filter on both paths, including the empty-value skip on the querybuilder
path. -/
theorem C5_witness :
    whereStep "name__like".data "bob".data 1 =
      ([tQuote "name".data ++ " ILIKE ".data ++ ph 1],
       [SqlArg.str ("%".data ++ "bob".data ++ "%".data)], 1 + 1) ∧
    whereStep "name__like".data [] 1 = ([], [], 1) ∧
    queryFilterStep "name.like".data "bob".data 1 =
      ([pgxSanitize "name".data ++ " LIKE ".data ++ ph 1],
       [SqlArg.str ("%".data ++ "bob".data ++ "%".data)], 1 + 1) :=
  ⟨C5_like_translation.1 "name__like".data "name".data "bob".data 1 (by decide) (by decide),
   C5_like_translation.2.1 "name__like".data "name".data 1 (by decide),
   C5_like_translation.2.2 "name.like".data "name".data "bob".data 1 (by decide)⟩

/-- Claim C6 counterexample: for the empty sort-column string, sanitization
yields the empty string, but `BuildOrderByClause` returns no clause at all
instead of substituting `id`; and on the `GetTableRows` path the ORDER BY
for a non-`id` sort column (`created_at`) carries no `, id` tiebreaker at
all — the column is pgx-quoted rather than filtered to the character
class, and the direction text is interpolated verbatim. -/
theorem C6_counterexample :
    (BuildOrderByClause ⟨25, 0, [], "ASC".data, [], []⟩ = [] ∧
      ([] : Str) ≠ "ORDER BY id ASC".data) ∧
    getTableRowsQuery "users".data ⟨[], []⟩ "created_at".data "desc".data 1 10 =
      ("SELECT * FROM \"users\" ORDER BY \"created_at\" desc LIMIT 10 OFFSET 0".data,
       []) ∧
    ¬(", id".data <:+:
      "SELECT * FROM \"users\" ORDER BY \"created_at\" desc LIMIT 10 OFFSET 0".data) := by
  refine ⟨by decide, by decide, by decide⟩

/-- Claim C6 (amended): the claimed behaviour is that of
`BuildOrderByClause` alone, and only for NON-empty sort-column strings:
there the emitted primary column is the sort column filtered to the class
`[A-Za-z0-9_.]`, `id` is substituted when the filter empties the string,
and a tiebreaker `, id <dir>` in the same direction is appended exactly
when the sanitized primary column is not `id`; the empty sort-column
string instead yields no ORDER BY clause at all.  The `GetTableRows` path
behaves differently: a non-empty `order_by` is pgx-quoted as an identifier
(not filtered to the character class), the `order_dir` text is
interpolated verbatim, and no `id` substitution or tiebreaker is ever
appended. -/
theorem C6_order_by_amended (qp : QueryParams) (h : qp.sortBy ≠ []) :
    (∀ c ∈ qp.sortBy.filter isSortChar, isSortChar c = true) ∧
    (qp.sortBy.filter isSortChar = [] →
      BuildOrderByClause qp = "ORDER BY id ".data ++ qp.sortOrder) ∧
    (qp.sortBy.filter isSortChar = "id".data →
      BuildOrderByClause qp = "ORDER BY id ".data ++ qp.sortOrder) ∧
    (qp.sortBy.filter isSortChar ≠ [] → qp.sortBy.filter isSortChar ≠ "id".data →
      BuildOrderByClause qp =
        "ORDER BY ".data ++ qp.sortBy.filter isSortChar ++ " ".data ++ qp.sortOrder ++
          ", id ".data ++ qp.sortOrder) ∧
    (∀ (table : Str) (qf : QueryFilter) (orderBy orderDir : Str) (page pageSize : Int),
      orderBy ≠ [] →
      (getTableRowsQuery table qf orderBy orderDir page pageSize).1 =
        (if 0 < qf.wheres.length then
          "SELECT * FROM ".data ++ pgxSanitize table ++ " WHERE ".data ++
            joinSep " AND ".data qf.wheres
         else "SELECT * FROM ".data ++ pgxSanitize table) ++
        " ORDER BY ".data ++ pgxSanitize orderBy ++ " ".data ++ orderDir ++
        " LIMIT ".data ++ intStr (clampPageSize pageSize) ++ " OFFSET ".data ++
        intStr ((clampPage page - 1) * clampPageSize pageSize)) := by
  refine ⟨fun c hc => (List.mem_filter.1 hc).2, ?_, ?_, ?_, ?_⟩
  · intro hemp
    unfold BuildOrderByClause
    rw [if_neg h]
    simp +decide [hemp]
  · intro hid
    unfold BuildOrderByClause
    rw [if_neg h]
    simp +decide [hid]
  · intro hne hnid
    unfold BuildOrderByClause
    rw [if_neg h]
    simp [hne, hnid]
  · intro table qf orderBy orderDir page pageSize horder
    simp only [getTableRowsQuery]
    rw [if_pos horder]

/-- Claim C6 witness: the amended statement evaluated at a `created_at`
descending sort on the querybuilder path and a `name` ascending sort on
the handler path. -/
theorem C6_witness :
    BuildOrderByClause ⟨25, 0, "created_at".data, "DESC".data, [], []⟩ =
      "ORDER BY ".data ++ "created_at".data.filter isSortChar ++ " ".data ++
        "DESC".data ++ ", id ".data ++ "DESC".data ∧
    (getTableRowsQuery "users".data ⟨[], []⟩ "name".data "asc".data 1 10).1 =
      "SELECT * FROM \"users\" ORDER BY \"name\" asc LIMIT 10 OFFSET 0".data :=
  ⟨(C6_order_by_amended ⟨25, 0, "created_at".data, "DESC".data, [], []⟩
      (by decide)).2.2.2.1 (by decide) (by decide),
   (C6_order_by_amended ⟨25, 0, "created_at".data, "DESC".data, [], []⟩
      (by decide)).2.2.2.2 "users".data ⟨[], []⟩ "name".data "asc".data 1 10 (by decide)⟩

/-- Claim C3 counterexample: `GetTableRows` builds a paginated SELECT whose
LIMIT and OFFSET values appear as literal text in the SQL string while the
bound-argument list stays empty, refuting bound-parameter pagination on
every code path. -/
theorem C3_counterexample :
    getTableRowsQuery "users".data ⟨[], []⟩ [] "asc".data 1 10 =
      ("SELECT * FROM \"users\" LIMIT 10 OFFSET 0".data, []) ∧
    " LIMIT 10".data <:+: "SELECT * FROM \"users\" LIMIT 10 OFFSET 0".data := by
  decide

/-- Claim C3 (amended): the querybuilder's `BuildPaginationClause` does
pass LIMIT and OFFSET as bound integer parameters, but `GetTableRows`
instead interpolates the clamped page size and offset as integer literals
into the SQL text and passes only the filter parameters as bound
arguments. -/
theorem C3_pagination_binding (qp : QueryParams) (table : Str) (qf : QueryFilter)
    (orderBy orderDir : Str) (page pageSize : Int) :
    (0 < qp.limit → 0 < qp.offset →
      BuildPaginationClause qp =
        ("LIMIT $1 OFFSET $2".data, [SqlArg.int qp.limit, SqlArg.int qp.offset])) ∧
    (0 < qp.limit → qp.offset ≤ 0 →
      BuildPaginationClause qp = ("LIMIT $1".data, [SqlArg.int qp.limit])) ∧
    (qp.limit ≤ 0 → 0 < qp.offset →
      BuildPaginationClause qp = ("OFFSET $1".data, [SqlArg.int qp.offset])) ∧
    ((getTableRowsQuery table qf orderBy orderDir page pageSize).2 = qf.params ∧
      " LIMIT ".data ++ intStr (clampPageSize pageSize) ++ " OFFSET ".data ++
          intStr ((clampPage page - 1) * clampPageSize pageSize) <:+
        (getTableRowsQuery table qf orderBy orderDir page pageSize).1) := by
  refine ⟨?_, ?_, ?_, rfl, ?_⟩
  · intro h1 h2
    have hno : ¬(qp.limit ≤ 0 ∧ qp.offset ≤ 0) := by omega
    simp +decide [BuildPaginationClause, hno, h1, h2, joinSep, ph, natStr, natStrAux]
  · intro h1 h2
    have hno : ¬(qp.limit ≤ 0 ∧ qp.offset ≤ 0) := by omega
    have h2' : ¬(0 < qp.offset) := by omega
    simp +decide [BuildPaginationClause, hno, h1, h2', joinSep, ph, natStr, natStrAux]
  · intro h1 h2
    have hno : ¬(qp.limit ≤ 0 ∧ qp.offset ≤ 0) := by omega
    have h1' : ¬(0 < qp.limit) := by omega
    simp +decide [BuildPaginationClause, hno, h1', h2, joinSep, ph, natStr, natStrAux]
  · unfold getTableRowsQuery
    simp only [List.append_assoc]
    exact List.suffix_append _ _

/-- Claim C3 witness: the amended statement evaluated at limit 25,
offset 10 on the querybuilder path and at page 1, page size 10 on the
handler path. -/
theorem C3_witness :
    BuildPaginationClause ⟨25, 10, "id".data, "ASC".data, [], []⟩ =
      ("LIMIT $1 OFFSET $2".data, [SqlArg.int 25, SqlArg.int 10]) ∧
    (getTableRowsQuery "users".data ⟨[], []⟩ [] "asc".data 1 10).2 = [] ∧
    " LIMIT ".data ++ intStr (clampPageSize 10) ++ " OFFSET ".data ++
        intStr ((clampPage 1 - 1) * clampPageSize 10) <:+
      (getTableRowsQuery "users".data ⟨[], []⟩ [] "asc".data 1 10).1 :=
  ⟨(C3_pagination_binding ⟨25, 10, "id".data, "ASC".data, [], []⟩ "users".data ⟨[], []⟩
      [] "asc".data 1 10).1 (by decide) (by decide),
   (C3_pagination_binding ⟨25, 10, "id".data, "ASC".data, [], []⟩ "users".data ⟨[], []⟩
      [] "asc".data 1 10).2.2.2⟩

theorem take6_iff (t S : Str) (hS : S.length = 6) :
    (6 ≤ t.length ∧ t.take 6 = S) ↔ S <+: t := by
  constructor
  · rintro ⟨-, ht⟩
    rw [ List.prefix_iff_eq_take, hS]
    exact ht.symm
  · intro hp
    have h1 := List.prefix_iff_eq_take.1 hp
    rw [hS] at h1
    refine ⟨?_, h1.symm⟩
    have h2 := hp.length_le
    omega

/-- Claim C2 counterexample: the input `Select 1` satisfies the claim's
criterion (case-insensitive `SELECT` prefix after stripping whitespace, no
mutation keyword anywhere in the text) yet the classifier does not return
select, because its prefix test only accepts the exact spellings `SELECT`
and `select`. -/
theorem C2_counterexample :
    isSelectQuery "Select 1".data = false ∧ specIsSelect "Select 1".data = true := by
  decide

/-- Claim C2 (amended): the classifier returns select exactly when the
whitespace-stripped text has the exact prefix `SELECT` or `select` (no
other casing) and the whitespace-stripped text (not the full text)
contains no mutation keyword case-insensitively. -/
theorem C2_classifier_exact_case (sql : Str) :
    isSelectQuery sql = amendedIsSelect sql := by
  simp only [isSelectQuery, amendedIsSelect]
  by_cases hcond : 6 ≤ (trimSpaces sql).length ∧
      ((trimSpaces sql).take 6 = "SELECT".data ∨ (trimSpaces sql).take 6 = "select".data)
  · rw [if_pos hcond]
    have hpre : ("SELECT".data.isPrefixOf (trimSpaces sql) ||
        "select".data.isPrefixOf (trimSpaces sql)) = true := by
      rcases hcond.2 with h | h
      · have hp := (take6_iff _ "SELECT".data (by decide)).1 ⟨hcond.1, h⟩
        simp [ List.isPrefixOf_iff_prefix, hp]
      · have hp := (take6_iff _ "select".data (by decide)).1 ⟨hcond.1, h⟩
        simp [ List.isPrefixOf_iff_prefix, hp]
    rw [hpre, Bool.true_and]
    simp [mutationKeywords, Bool.or_assoc]
  · rw [if_neg hcond]
    have h1 : "SELECT".data.isPrefixOf (trimSpaces sql) = false := by
      cases hpb : "SELECT".data.isPrefixOf (trimSpaces sql) with
      | false => rfl
      | true =>
        exfalso
        have hp : "SELECT".data <+: trimSpaces sql := List.isPrefixOf_iff_prefix.1 hpb
        have h3 := (take6_iff _ _ (by decide)).2 hp
        exact hcond ⟨h3.1, Or.inl h3.2⟩
    have h2 : "select".data.isPrefixOf (trimSpaces sql) = false := by
      cases hpb : "select".data.isPrefixOf (trimSpaces sql) with
      | false => rfl
      | true =>
        exfalso
        have hp : "select".data <+: trimSpaces sql := List.isPrefixOf_iff_prefix.1 hpb
        have h3 := (take6_iff _ _ (by decide)).2 hp
        exact hcond ⟨h3.1, Or.inr h3.2⟩
    rw [h1, h2]
    rfl

/-- Claim C4 counterexample: a single filter key `a__gt` (supported
operator `gt`) with the empty value produces a fragment with ZERO
comparisons on the querybuilder path, not exactly one per filter key. -/
theorem C4_counterexample :
    (whereCondsArgs ⟨25, 0, "id".data, "ASC".data, [("a__gt".data, [])], []⟩).1.length = 0 ∧
    BuildWhereClause ⟨25, 0, "id".data, "ASC".data, [("a__gt".data, [])], []⟩ =
      ([], []) := by
  decide

/-- Claim C4 (amended): for filter keys of the supported `col__op` form
with NON-empty values (empty-valued entries are skipped by the
querybuilder) and, on the handler path, for keys of the supported
`col.op` form with any value, the translation emits exactly one comparison
per filter key, and the `$n` placeholders appearing in the generated WHERE
fragment are exactly `$1 ... $N` in textual order, where `N` is the length
of the bound-argument list (so the argument list matches the placeholders
in cardinality and positional order).  Column names are assumed free of
the `$` character, which would otherwise spoof placeholder text inside
quoted identifiers. -/
theorem C4_placeholder_alignment :
    (∀ qp : QueryParams, qp.search = [] →
      (∀ p ∈ qp.filters, p.2 ≠ [] ∧ qbSupportedKey p.1 = true) →
      (whereCondsArgs qp).1.length = qp.filters.length ∧
      phIndices (BuildWhereClause qp).1 =
        (List.range' 1 (BuildWhereClause qp).2.length).map natStr) ∧
    (∀ args : List (Str × Str), (∀ p ∈ args, handlerSupportedKey p.1 = true) →
      (buildQueryFilters args).wheres.length = args.length ∧
      phIndices (joinSep " AND ".data (buildQueryFilters args).wheres) =
        (List.range' 1 (buildQueryFilters args).params.length).map natStr) := by
  constructor
  · intro qp hs hf
    have hfold := whereFold_spec qp.filters 1 hf
    have hca : whereCondsArgs qp =
        ((whereFold qp.filters 1).1, (whereFold qp.filters 1).2) := by
      simp [whereCondsArgs, hs]
    refine ⟨by rw [hca]; exact hfold.1, ?_⟩
    by_cases he : qp.filters = []
    · have hWF : whereFold qp.filters 1 = ([], []) := by rw [he]; rfl
      have : BuildWhereClause qp = ([], []) := by
        unfold BuildWhereClause
        rw [if_pos ⟨he, hs⟩]
      rw [this]
      simp [phIndices, phScan]
    · have hne : (whereFold qp.filters 1).1 ≠ [] := by
        intro e
        have h0 := hfold.1
        rw [e] at h0
        exact he (List.eq_nil_of_length_eq_zero h0.symm)
      have hBW : BuildWhereClause qp =
          ("WHERE ".data ++ joinSep " AND ".data (whereFold qp.filters 1).1,
           (whereFold qp.filters 1).2) := by
        unfold BuildWhereClause
        rw [if_neg (fun hand => he hand.1), hca]
        simp [hne]
      rw [hBW]
      have hall := hfold.2.1
      have hjoin_head : headNotDigit (joinSep " AND ".data (whereFold qp.filters 1).1) := by
        cases hcs : (whereFold qp.filters 1).1 with
        | nil => exact absurd hcs hne
        | cons c0 cs =>
          have hc0 : c0 ∈ (whereFold qp.filters 1).1 := by
            rw [hcs]; exact List.mem_cons_self _ _
          intro c hc
          rw [joinSep_head _ _ _ (hall c0 hc0).1] at hc
          exact (hall c0 hc0).2 c hc
      rw [show phIndices ("WHERE ".data ++ joinSep " AND ".data (whereFold qp.filters 1).1) =
          phIndices (joinSep " AND ".data (whereFold qp.filters 1).1) from
        phIndices_append_left _ _ (by decide) hjoin_head]
      rw [phIndices_join " AND ".data (by decide)
        (by intro c hc; simp at hc; rw [← hc]; decide) (by decide) _ hall]
      exact hfold.2.2
  · intro args hf
    have hfold := queryFilterFold_spec args 1 hf
    have hbq : buildQueryFilters args =
        ⟨(queryFilterFold args 1).1, (queryFilterFold args 1).2⟩ := rfl
    refine ⟨by rw [hbq]; exact hfold.1, ?_⟩
    show phIndices (joinSep " AND ".data (queryFilterFold args 1).1) =
      (List.range' 1 (queryFilterFold args 1).2.length).map natStr
    have hall := hfold.2.1
    cases hcs : (queryFilterFold args 1).1 with
    | nil =>
      have h0 : (queryFilterFold args 1).2.length = 0 := by
        have h2 := hfold.2.2
        rw [hcs] at h2
        simp only [List.map_nil, List.flatten_nil] at h2
        have h3 := congrArg List.length h2
        simpa using h3.symm
      rw [h0]
      simp [joinSep, phIndices, phScan]
    | cons c0 cs =>
      rw [← hcs,
        phIndices_join " AND ".data (by decide)
          (by intro c hc; simp at hc; rw [← hc]; decide) (by decide) _ hall]
      exact hfold.2.2

/-- Claim C4 witness: the amended statement evaluated at two supported
filters (`a__gt=5`, `b__in=x, y`) on the querybuilder path and one
(`name.like=bob`) on the handler path. -/
theorem C4_witness :
    ((whereCondsArgs ⟨25, 0, "id".data, "ASC".data,
        [("a__gt".data, "5".data), ("b__in".data, "x, y".data)], []⟩).1.length =
      [("a__gt".data, "5".data), ("b__in".data, "x, y".data)].length ∧
    phIndices (BuildWhereClause ⟨25, 0, "id".data, "ASC".data,
        [("a__gt".data, "5".data), ("b__in".data, "x, y".data)], []⟩).1 =
      (List.range' 1 (BuildWhereClause ⟨25, 0, "id".data, "ASC".data,
        [("a__gt".data, "5".data), ("b__in".data, "x, y".data)], []⟩).2.length).map natStr) ∧
    ((buildQueryFilters [("name.like".data, "bob".data)]).wheres.length =
      [("name.like".data, "bob".data)].length ∧
    phIndices (joinSep " AND ".data
        (buildQueryFilters [("name.like".data, "bob".data)]).wheres) =
      (List.range' 1
        (buildQueryFilters [("name.like".data, "bob".data)]).params.length).map natStr) :=
  ⟨C4_placeholder_alignment.1 ⟨25, 0, "id".data, "ASC".data,
      [("a__gt".data, "5".data), ("b__in".data, "x, y".data)], []⟩ rfl (by decide),
   C4_placeholder_alignment.2 [("name.like".data, "bob".data)] (by decide)⟩
